import Mathlib

/-!
Verification of the `git-bv` repository snapshot: a `setup.py` packaging
declaration and a `tests.py` test stub.

`tests.py` defines a unittest fixture:

* `TestBase.setUp`: calls `super().setUp()` (which, in the method resolution
  order of `class Test(TestBase, CreateRepositories)`, is
  `CreateRepositories.setUp`, which in turn calls `unittest.TestCase.setUp`,
  a no-op), then `self.cwd = mkdtemp(prefix='git-bv_test')` and
  `os.chdir(self.cwd)`.
* `TestBase.tearDown`: calls `super().tearDown()` (same no-op chain), then
  `shutil.rmtree(self.cwd)`.
* `Test.test_current_directory`: asserts `os.listdir(os.getcwd()) == []`.
* `Test.test_01`, `Test.test_02`: bodies are `pass`.

The embedding models the process-visible state (filesystem entries, the
read-only subset of them, and the current working directory) explicitly, and
models the possibility that any filesystem syscall raises `OSError` (for
OS-level reasons such as permissions or resource exhaustion) by a schedule of
injected faults carried in the state and consumed one per syscall.  An empty
schedule means no syscall fails.  The test runner `runCase` follows the
documented semantics of `unittest.TestCase.run`: the test method and
`tearDown` are executed only if `setUp` succeeded, and `tearDown` runs
whether or not the test method raised.
-/

/-- A path component.  `mkdtemp` builds directory names from a caller-supplied
base string followed by a fresh suffix; the suffix is modelled by the `nonce`
field.  Ordinary fixed names use nonce `0`. -/
structure Component where
  base : String
  nonce : Nat
deriving DecidableEq, Repr

/-- An absolute path, as its list of components from the root. -/
abbrev FsPath := List Component

/-- The system temporary directory (`/tmp`) that `tempfile.mkdtemp` creates
its directories under. -/
def tmpRoot : Component := ⟨"tmp", 0⟩

/-- The path of the temporary directory built from the given name base and
nonce, i.e. `/tmp/<pfx><suffix>`. -/
def tmpName (pfx : String) (n : Nat) : FsPath := [tmpRoot, ⟨pfx, n⟩]

/-- The nonce of a path when it is a temporary directory of base name `pfx`
directly under the temporary root, and `none` otherwise. -/
def nonceOf (pfx : String) (p : FsPath) : Option Nat :=
  match p with
  | [r, c] => if r = tmpRoot ∧ c.base = pfx then some c.nonce else none
  | _ => none

/-- Errors a statement of the Python sources can raise: `OSError` from the
filesystem calls, `AssertionError` from `assertEqual`. -/
inductive PyErr where
  | oserror
  | assertionError
deriving DecidableEq, Repr

/-- The process-visible state: the set of existing filesystem entries, the
subset of them that is not writable, the current working directory, and the
schedule of injected syscall faults (consumed one per syscall; an exhausted
schedule means the syscall succeeds). -/
structure Sys where
  fs : List FsPath
  readonly : List FsPath
  cwd : FsPath
  faults : List Bool
deriving DecidableEq, Repr

/-- Consume the next entry of the fault schedule. -/
def takeFault (s : Sys) : Bool × Sys :=
  match s.faults with
  | [] => (false, s)
  | b :: rest => (b, { s with faults := rest })

/-- The nonces of the temporary directories of base name `pfx` that currently
exist. -/
def usedNonces (fs : List FsPath) (pfx : String) : List Nat :=
  fs.filterMap (nonceOf pfx)

/-- A nonce unused by any existing temporary directory of base name `pfx`:
one more than the largest nonce in use. -/
def freshNonce (fs : List FsPath) (pfx : String) : Nat :=
  (usedNonces fs pfx).foldr max 0 + 1

/-- Model of `os.getcwd()`. -/
def getcwd (s : Sys) : FsPath := s.cwd

/-- Model of `os.listdir(p)`: the entries directly inside directory `p`,
raising `OSError` when `p` does not exist. -/
def listdir (p : FsPath) (s : Sys) : Except PyErr (List FsPath) × Sys :=
  if p ∈ s.fs then
    (Except.ok (s.fs.filter (fun q => decide (p <+: q) && decide (q.length = p.length + 1))), s)
  else (Except.error PyErr.oserror, s)

/-- Model of `tempfile.mkdtemp(prefix=pfx)`: create, under the temporary
root, a directory with a name (base plus fresh suffix) that does not collide
with any existing entry, and return its path.  The created directory is
empty, and is owned and writable by the caller (mode `0700`). -/
def mkdtemp (pfx : String) (s : Sys) : Except PyErr FsPath × Sys :=
  let f := (takeFault s).1
  let s1 := (takeFault s).2
  if f then (Except.error PyErr.oserror, s1)
  else
    (Except.ok (tmpName pfx (freshNonce s1.fs pfx)),
     { s1 with fs := tmpName pfx (freshNonce s1.fs pfx) :: s1.fs })

/-- Model of `tempfile.mkdtemp(prefix=pfx)` with its entropy source made
explicit: the random suffix of the directory name is drawn from a name
sequence seeded from OS entropy, which is not part of the process-visible
state; the draw is the extra input `noise`.  Whatever the draw, the chosen
name does not collide with any existing entry (`mkdtemp` retries colliding
candidates), which the model realizes by offsetting a non-colliding nonce by
the draw.  `mkdtemp` above is the special case of draw `0`. -/
def mkdtempR (noise : Nat) (pfx : String) (s : Sys) : Except PyErr FsPath × Sys :=
  let f := (takeFault s).1
  let s1 := (takeFault s).2
  if f then (Except.error PyErr.oserror, s1)
  else
    (Except.ok (tmpName pfx (freshNonce s1.fs pfx + noise)),
     { s1 with fs := tmpName pfx (freshNonce s1.fs pfx + noise) :: s1.fs })

/-- Model of `os.chdir(p)`: make `p` the current working directory, raising
`OSError` when `p` does not exist. -/
def chdir (p : FsPath) (s : Sys) : Except PyErr Unit × Sys :=
  let f := (takeFault s).1
  let s1 := (takeFault s).2
  if f then (Except.error PyErr.oserror, s1)
  else if p ∈ s1.fs then (Except.ok (), { s1 with cwd := p })
  else (Except.error PyErr.oserror, s1)

/-- Model of `shutil.rmtree(p)`: remove `p` and everything below it, raising
`OSError` when `p` does not exist. -/
def rmtree (p : FsPath) (s : Sys) : Except PyErr Unit × Sys :=
  let f := (takeFault s).1
  let s1 := (takeFault s).2
  if f then (Except.error PyErr.oserror, s1)
  else if p ∈ s1.fs then
    (Except.ok (),
     { s1 with fs := s1.fs.filter (fun q => !(decide (p <+: q))),
               readonly := s1.readonly.filter (fun q => !(decide (p <+: q))) })
  else (Except.error PyErr.oserror, s1)

/-- A path is writable when it exists and is not in the read-only subset. -/
def writable (p : FsPath) (s : Sys) : Prop := p ∈ s.fs ∧ p ∉ s.readonly

instance (p : FsPath) (s : Sys) : Decidable (writable p s) :=
  inferInstanceAs (Decidable (p ∈ s.fs ∧ p ∉ s.readonly))

/-- The parent directory of a path. -/
def parent (p : FsPath) : FsPath := p.take (p.length - 1)

/-- A filesystem is parent-closed when every entry below the root level has
its parent directory present.  Every real filesystem state satisfies this. -/
def ParentClosed (fs : List FsPath) : Prop :=
  ∀ p ∈ fs, p.length ≤ 1 ∨ parent p ∈ fs

instance (fs : List FsPath) : Decidable (ParentClosed fs) :=
  inferInstanceAs (Decidable (∀ p ∈ fs, p.length ≤ 1 ∨ parent p ∈ fs))

/-- Well-formed states: the filesystem is parent-closed and the read-only
subset only lists existing entries. -/
def Sys.WF (s : Sys) : Prop :=
  ParentClosed s.fs ∧ ∀ p ∈ s.readonly, p ∈ s.fs

instance (s : Sys) : Decidable s.WF :=
  inferInstanceAs (Decidable (ParentClosed s.fs ∧ ∀ p ∈ s.readonly, p ∈ s.fs))

/-- `unittest.TestCase.setUp`: a no-op. -/
def TestCase.setUp (s : Sys) : Except PyErr Unit × Sys := (Except.ok (), s)

/-- `unittest.TestCase.tearDown`: a no-op. -/
def TestCase.tearDown (s : Sys) : Except PyErr Unit × Sys := (Except.ok (), s)

/-- `CreateRepositories.setUp`: only calls `super().setUp()`, which in the
method resolution order of `Test` is `unittest.TestCase.setUp`. -/
def CreateRepositories.setUp (s : Sys) : Except PyErr Unit × Sys := TestCase.setUp s

/-- `CreateRepositories.tearDown`: only calls `super().tearDown()`, which in
the method resolution order of `Test` is `unittest.TestCase.tearDown`. -/
def CreateRepositories.tearDown (s : Sys) : Except PyErr Unit × Sys := TestCase.tearDown s

/-- `TestBase.setUp` as run on an instance of `Test`: `super().setUp()`
(the `CreateRepositories` / `unittest.TestCase` no-op chain), then
`self.cwd = mkdtemp(prefix='git-bv_test')`, then `os.chdir(self.cwd)`.
Returns the value stored in `self.cwd` on success. -/
def TestBase.setUp (s : Sys) : Except PyErr FsPath × Sys :=
  match CreateRepositories.setUp s with
  | (Except.error e, s1) => (Except.error e, s1)
  | (Except.ok _, s1) =>
    match mkdtemp "git-bv_test" s1 with
    | (Except.error e, s2) => (Except.error e, s2)
    | (Except.ok d, s2) =>
      match chdir d s2 with
      | (Except.error e, s3) => (Except.error e, s3)
      | (Except.ok _, s3) => (Except.ok d, s3)

/-- `TestBase.setUp` with `mkdtemp`'s entropy draw explicit: identical to
`TestBase.setUp` except that the temporary name depends on the draw `noise`
as well as on the state.  `TestBase.setUp` is the special case of draw `0`. -/
def TestBase.setUpR (noise : Nat) (s : Sys) : Except PyErr FsPath × Sys :=
  match CreateRepositories.setUp s with
  | (Except.error e, s1) => (Except.error e, s1)
  | (Except.ok _, s1) =>
    match mkdtempR noise "git-bv_test" s1 with
    | (Except.error e, s2) => (Except.error e, s2)
    | (Except.ok d, s2) =>
      match chdir d s2 with
      | (Except.error e, s3) => (Except.error e, s3)
      | (Except.ok _, s3) => (Except.ok d, s3)

/-- `TestBase.tearDown` as run on an instance of `Test`: `super().tearDown()`
(the no-op chain), then `shutil.rmtree(self.cwd)`; `cwd` is the value that
`setUp` stored in `self.cwd`. -/
def TestBase.tearDown (cwd : FsPath) (s : Sys) : Except PyErr Unit × Sys :=
  match CreateRepositories.tearDown s with
  | (Except.error e, s1) => (Except.error e, s1)
  | (Except.ok _, s1) => rmtree cwd s1

/-- `Test.test_current_directory`: `self.assertEqual(os.listdir(os.getcwd()), [])`. -/
def Test.test_current_directory (s : Sys) : Except PyErr Unit × Sys :=
  match listdir (getcwd s) s with
  | (Except.error e, s1) => (Except.error e, s1)
  | (Except.ok l, s1) =>
    if l = [] then (Except.ok (), s1) else (Except.error PyErr.assertionError, s1)

/-- `Test.test_01`: body is `pass`. -/
def Test.test_01 (s : Sys) : Except PyErr Unit × Sys := (Except.ok (), s)

/-- `Test.test_02`: body is `pass`. -/
def Test.test_02 (s : Sys) : Except PyErr Unit × Sys := (Except.ok (), s)

/-- The phase of a test run after a successful `setUp`: the test method,
then `tearDown` (run whether or not the method raised, per
`unittest.TestCase.run`).  The reported outcome is the method's error when it
raised, else `tearDown`'s result. -/
def runBodyTearDown (body : Sys → Except PyErr Unit × Sys) (d : FsPath) (s1 : Sys) :
    Except PyErr Unit × Sys :=
  match body s1 with
  | (Except.ok _, s2) => TestBase.tearDown d s2
  | (Except.error e, s2) => (Except.error e, (TestBase.tearDown d s2).2)

/-- A full run of one test case of `Test`, per the documented semantics of
`unittest.TestCase.run`: `setUp` first; when it raises, the test method and
`tearDown` are skipped; when it succeeds, the method runs and `tearDown`
runs afterwards in every case. -/
def runCase (body : Sys → Except PyErr Unit × Sys) (s : Sys) : Except PyErr Unit × Sys :=
  match TestBase.setUp s with
  | (Except.error e, s1) => (Except.error e, s1)
  | (Except.ok d, s1) => runBodyTearDown body d s1

/-- `requires` from `setup.py`: the empty list. -/
def requires : List String := []

/-- `tests_require` from `setup.py`. -/
def tests_require : List String := ["WebTest >= 1.3.1", "pytest", "pytest-cov"]

/-- The keyword arguments of a `setuptools.setup` call, restricted to the
ones `setup.py` passes. -/
structure SetupArgs where
  name : String
  version : String
  description : String
  long_description : String
  classifiers : List String
  author : String
  author_email : String
  url : String
  keywords : String
  scripts : List String
  include_package_data : Bool
  zip_safe : Bool
  extras_require : List (String × List String)
  install_requires : List String
deriving DecidableEq, Repr

/-- The `setup(...)` call of `setup.py`, argument for argument. -/
def setupArgs : SetupArgs :=
  { name := "git-bv"
    version := "0.0"
    description := "Manage many BrainVISA projects with git"
    long_description := ""
    classifiers := ["Programming Language :: Python"]
    author := ""
    author_email := ""
    url := ""
    keywords := "brainvisa git"
    scripts := ["git-bv"]
    include_package_data := true
    zip_safe := false
    extras_require := [("testing", tests_require)]
    install_requires := requires }

/-- A concrete well-formed initial state: just the temporary root exists, no
read-only entries, the temporary root is the working directory, no injected
faults. -/
def sInit : Sys := { fs := [[tmpRoot]], readonly := [], cwd := [tmpRoot], faults := [] }

/-- The directory `TestBase.setUp` creates when run from `sInit`. -/
def dTmp : FsPath := tmpName "git-bv_test" 1

/-- The state after `TestBase.setUp` run from `sInit`. -/
def sMid : Sys := { fs := [dTmp, [tmpRoot]], readonly := [], cwd := dTmp, faults := [] }

/-- The state after `TestBase.tearDown dTmp` run from `sMid`. -/
def sEnd : Sys := { fs := [[tmpRoot]], readonly := [], cwd := dTmp, faults := [] }

/-- The directory a second `TestBase.setUp`, run from `sMid`, creates. -/
def dTmp2 : FsPath := tmpName "git-bv_test" 2

/-- The state after a second `TestBase.setUp` run from `sMid`. -/
def sMid2 : Sys := { fs := [dTmp2, dTmp, [tmpRoot]], readonly := [], cwd := dTmp2, faults := [] }

/-- A concrete state whose fault schedule lets `mkdtemp` succeed and makes
the following `chdir` raise `OSError`. -/
def sFault : Sys := { fs := [[tmpRoot]], readonly := [], cwd := [tmpRoot], faults := [false, true] }

/-- Every member of a list of naturals is bounded by its `foldr max 0`. -/
theorem mem_le_foldr_max (l : List Nat) (x : Nat) (hx : x ∈ l) :
    x ≤ l.foldr max 0 := by
  induction l with
  | nil => cases hx
  | cons a t ih =>
    rcases List.mem_cons.mp hx with rfl | h
    · exact le_max_left _ _
    · exact le_trans (ih h) (le_max_right _ _)

/-- `nonceOf` recovers the nonce of a temporary-directory path. -/
theorem nonceOf_tmpName (pfx : String) (n : Nat) :
    nonceOf pfx (tmpName pfx n) = some n := by
  simp [nonceOf, tmpName]

/-- The directory name `mkdtemp` picks does not collide with any existing
filesystem entry. -/
theorem tmpName_freshNonce_not_mem (fs : List FsPath) (pfx : String) :
    tmpName pfx (freshNonce fs pfx) ∉ fs := by
  intro hmem
  have hn : freshNonce fs pfx ∈ usedNonces fs pfx :=
    List.mem_filterMap.mpr ⟨tmpName pfx (freshNonce fs pfx), hmem, nonceOf_tmpName _ _⟩
  have hle := mem_le_foldr_max _ _ hn
  simp only [freshNonce] at hle
  omega

/-- A filter by a predicate false on every member is empty. -/
theorem filter_eq_nil_of_all_false {α : Type} (p : α → Bool) (l : List α)
    (h : ∀ a ∈ l, p a = false) : l.filter p = [] := by
  induction l with
  | nil => rfl
  | cons x xs ih =>
    have hx := h x (List.mem_cons_self x xs)
    simp only [List.filter, hx]
    exact ih (fun a ha => h a (List.mem_cons_of_mem x ha))

/-- A filter by a predicate true on every member is the identity. -/
theorem filter_eq_self_of_all_true {α : Type} (p : α → Bool) (l : List α)
    (h : ∀ a ∈ l, p a = true) : l.filter p = l := by
  induction l with
  | nil => rfl
  | cons x xs ih =>
    have hx := h x (List.mem_cons_self x xs)
    simp only [List.filter, hx]
    rw [ih (fun a ha => h a (List.mem_cons_of_mem x ha))]

/-- Taking at least the length of the left part of an append splits off the
left part whole. -/
theorem take_append_of_le {α : Type} (d t : List α) (k : Nat) (hk : d.length ≤ k) :
    (d ++ t).take k = d ++ t.take (k - d.length) := by
  induction d generalizing k with
  | nil => simp
  | cons x xs ih =>
    cases k with
    | zero => simp at hk
    | succ k' =>
      have hk' : xs.length ≤ k' := by
        simp only [List.length_cons] at hk; omega
      have harg : k' + 1 - (x :: xs).length = k' - xs.length := by
        simp only [List.length_cons]; omega
      simp only [List.cons_append, List.take_succ_cons, harg]
      rw [ih k' hk']

/-- In a parent-closed filesystem, nothing lies at or below a non-existing
directory of positive depth: auxiliary form with an explicit length bound. -/
theorem closed_no_ext_aux {fs : List FsPath} {d : FsPath}
    (hcl : ParentClosed fs) (hd : d ∉ fs) (hdl : 1 ≤ d.length) :
    ∀ n, ∀ p, p.length ≤ n → p ∈ fs → ¬ d <+: p := by
  intro n
  induction n with
  | zero =>
    intro p hlen hp hpre
    obtain ⟨t, ht⟩ := hpre
    subst ht
    simp only [List.length_append] at hlen
    omega
  | succ n ih =>
    intro p hlen hp hpre
    obtain ⟨t, ht⟩ := hpre
    subst ht
    cases t with
    | nil =>
      simp only [List.append_nil] at hp
      exact hd hp
    | cons a t' =>
      rcases hcl _ hp with h1 | h2
      · simp only [List.length_append, List.length_cons] at h1
        omega
      · refine ih (parent (d ++ a :: t')) ?_ h2
          ⟨(a :: t').take ((d ++ a :: t').length - 1 - d.length), ?_⟩
        · have hl : (parent (d ++ a :: t')).length = (d ++ a :: t').length - 1 := by
            simp [parent, List.length_take]
          have hlen2 : (d ++ a :: t').length ≤ n + 1 := hlen
          have hpos : 1 ≤ (d ++ a :: t').length := by
            simp only [List.length_append, List.length_cons]
            omega
          omega
        · rw [parent, take_append_of_le d (a :: t') ((d ++ a :: t').length - 1)
            (by simp only [List.length_append, List.length_cons]; omega)]

/-- In a parent-closed filesystem, nothing lies at or below a non-existing
directory of positive depth. -/
theorem closed_no_ext {fs : List FsPath} {d : FsPath}
    (hcl : ParentClosed fs) (hd : d ∉ fs) (hdl : 1 ≤ d.length)
    {p : FsPath} (hp : p ∈ fs) : ¬ d <+: p :=
  closed_no_ext_aux hcl hd hdl p.length p le_rfl hp

/-- `takeFault` only consumes the fault schedule. -/
theorem takeFault_fields (s : Sys) :
    (takeFault s).2.fs = s.fs ∧ (takeFault s).2.readonly = s.readonly ∧
    (takeFault s).2.cwd = s.cwd := by
  cases h : s.faults with
  | nil => simp [takeFault, h]
  | cons b t => simp [takeFault, h]

/-- Characterization of a successful `mkdtemp`: the returned path is the
fresh temporary name, it is added to the filesystem, and nothing else of the
observable state changes. -/
theorem mkdtemp_ok_spec {pfx : String} {s : Sys} {d : FsPath} {s' : Sys}
    (h : mkdtemp pfx s = (Except.ok d, s')) :
    d = tmpName pfx (freshNonce s.fs pfx) ∧ d ∉ s.fs ∧
    s'.fs = d :: s.fs ∧ s'.readonly = s.readonly ∧ s'.cwd = s.cwd := by
  obtain ⟨hfs, hro, hcwd⟩ := takeFault_fields s
  unfold mkdtemp at h
  cases hf : (takeFault s).1
  · rw [hf] at h
    simp only [Bool.false_eq_true, if_false] at h
    injection h with h1 h2
    injection h1 with h1
    subst h1
    constructor
    · rw [hfs]
    constructor
    · rw [hfs]
      exact tmpName_freshNonce_not_mem _ _
    · rw [← h2]
      simp [hfs, hro, hcwd]
  · rw [hf] at h
    simp only [if_true] at h
    injection h with h1 h2
    exact absurd h1 (by simp)

/-- Characterization of a successful `chdir`: the target exists, becomes the
working directory, and nothing else of the observable state changes. -/
theorem chdir_ok_spec {p : FsPath} {s : Sys} {u : Unit} {s' : Sys}
    (h : chdir p s = (Except.ok u, s')) :
    p ∈ s.fs ∧ s'.fs = s.fs ∧ s'.readonly = s.readonly ∧ s'.cwd = p := by
  obtain ⟨hfs, hro, hcwd⟩ := takeFault_fields s
  unfold chdir at h
  cases hf : (takeFault s).1
  · rw [hf] at h
    simp only [Bool.false_eq_true, if_false] at h
    by_cases hmem : p ∈ (takeFault s).2.fs
    · rw [if_pos hmem] at h
      injection h with h1 h2
      constructor
      · rw [← hfs]; exact hmem
      · rw [← h2]
        simp [hfs, hro]
    · rw [if_neg hmem] at h
      injection h with h1 h2
      exact absurd h1 (by simp)
  · rw [hf] at h
    simp only [if_true] at h
    injection h with h1 h2
    exact absurd h1 (by simp)

/-- Characterization of a successful `rmtree`: the target existed, and
exactly the entries at or below it disappear; the working directory is
untouched. -/
theorem rmtree_ok_spec {p : FsPath} {s : Sys} {u : Unit} {s' : Sys}
    (h : rmtree p s = (Except.ok u, s')) :
    p ∈ s.fs ∧
    s'.fs = s.fs.filter (fun q => !(decide (p <+: q))) ∧
    s'.readonly = s.readonly.filter (fun q => !(decide (p <+: q))) ∧
    s'.cwd = s.cwd := by
  obtain ⟨hfs, hro, hcwd⟩ := takeFault_fields s
  unfold rmtree at h
  cases hf : (takeFault s).1
  · rw [hf] at h
    simp only [Bool.false_eq_true, if_false] at h
    by_cases hmem : p ∈ (takeFault s).2.fs
    · rw [if_pos hmem] at h
      injection h with h1 h2
      constructor
      · rw [← hfs]; exact hmem
      · rw [← h2]
        simp [hfs, hro, hcwd]
    · rw [if_neg hmem] at h
      injection h with h1 h2
      exact absurd h1 (by simp)
  · rw [hf] at h
    simp only [if_true] at h
    injection h with h1 h2
    exact absurd h1 (by simp)

/-- `TestBase.tearDown` is `rmtree` after the no-op `super()` chain. -/
theorem tearDown_eq_rmtree (cwd : FsPath) (s : Sys) :
    TestBase.tearDown cwd s = rmtree cwd s := rfl

/-- Characterization of a successful `TestBase.setUp`: the directory stored
in `self.cwd` is the fresh temporary name, it did not exist before, it is
added to the filesystem, and it becomes the working directory. -/
theorem setUp_ok_spec {s : Sys} {d : FsPath} {s' : Sys}
    (h : TestBase.setUp s = (Except.ok d, s')) :
    d = tmpName "git-bv_test" (freshNonce s.fs "git-bv_test") ∧ d ∉ s.fs ∧
    s'.fs = d :: s.fs ∧ s'.readonly = s.readonly ∧ s'.cwd = d := by
  unfold TestBase.setUp at h
  have e1 : CreateRepositories.setUp s = (Except.ok (), s) := rfl
  rw [e1] at h
  dsimp only at h
  rcases hm : mkdtemp "git-bv_test" s with ⟨rm, s2⟩
  rw [hm] at h
  cases rm with
  | error e => simp at h
  | ok dm =>
    dsimp only at h
    rcases hc : chdir dm s2 with ⟨rc, s3⟩
    rw [hc] at h
    cases rc with
    | error e => simp at h
    | ok u =>
      dsimp only at h
      simp only [Prod.mk.injEq, Except.ok.injEq] at h
      obtain ⟨hdm, hs3⟩ := h
      subst hdm
      subst hs3
      obtain ⟨hm1, hm2, hm3, hm4, hm5⟩ := mkdtemp_ok_spec hm
      obtain ⟨hc1, hc2, hc3, hc4⟩ := chdir_ok_spec hc
      refine ⟨hm1, hm2, ?_, ?_, hc4⟩
      · rw [hc2, hm3]
      · rw [hc3, hm4]

/-- After a successful `TestBase.setUp` from a parent-closed filesystem,
listing the created directory succeeds and yields the empty list. -/
theorem setUp_listdir_empty {s : Sys} {d : FsPath} {s' : Sys}
    (hcl : ParentClosed s.fs) (h : TestBase.setUp s = (Except.ok d, s')) :
    listdir d s' = (Except.ok [], s') := by
  obtain ⟨hd, hfresh, hfs, hro, hcwd⟩ := setUp_ok_spec h
  have hdl : 1 ≤ d.length := by
    subst hd; simp [tmpName]
  have hmem : d ∈ s'.fs := by
    rw [hfs]; exact List.mem_cons_self _ _
  unfold listdir
  rw [if_pos hmem]
  have hfil : s'.fs.filter
      (fun q => decide (d <+: q) && decide (q.length = d.length + 1)) = [] := by
    apply filter_eq_nil_of_all_false
    intro q hq
    rw [hfs] at hq
    rcases List.mem_cons.mp hq with rfl | hq'
    · simp
    · have hnp : ¬ d <+: q := closed_no_ext hcl hfresh hdl hq'
      simp [hnp]
  rw [hfil]

/-- When `setUp` succeeds, `runCase` proceeds with the test method followed
by `tearDown`. -/
theorem runCase_of_setUp_ok {body : Sys → Except PyErr Unit × Sys} {s : Sys}
    {d : FsPath} {s1 : Sys} (hsu : TestBase.setUp s = (Except.ok d, s1)) :
    runCase body s = runBodyTearDown body d s1 := by
  unfold runCase
  rw [hsu]

/-- Whatever the test method's outcome, the state `runBodyTearDown` ends in
is the state `tearDown` leaves. -/
theorem runBodyTearDown_snd (body : Sys → Except PyErr Unit × Sys)
    (d : FsPath) (s1 : Sys) :
    (runBodyTearDown body d s1).2 = (TestBase.tearDown d (body s1).2).2 := by
  unfold runBodyTearDown
  rcases hb : body s1 with ⟨rb, s2⟩
  cases rb with
  | error e => rfl
  | ok u => rfl

/-- Every path is at or below itself. -/
theorem isPre_refl (p : FsPath) : p <+: p := ⟨[], List.append_nil p⟩

/-- C1, counterexample: running the fixture chain of `Test` normally
(`TestBase.setUp`, then `TestBase.tearDown`) from the concrete state `sInit`
ends in a state whose current working directory differs from the one before
`setUp`, so the combined effect of setup and teardown is not a no-op on every
observable aspect of the process state. -/
theorem fixture_chain_changes_cwd :
    TestBase.setUp sInit = (Except.ok dTmp, sMid) ∧
    TestBase.tearDown dTmp sMid = (Except.ok (), sEnd) ∧
    sEnd.cwd ≠ sInit.cwd :=
  ⟨rfl, rfl, by decide⟩

/-- C1, amended: for every normally completing execution of the test-fixture
chain on `Test` from a well-formed state, setup followed by teardown restores
the filesystem and the read-only set exactly, but not the current working
directory: afterwards the working directory is the temporary directory's
(now deleted) path. -/
theorem fixture_chain_restores_fs_only (s : Sys) (d : FsPath) (sa sb : Sys)
    (hwf : s.WF)
    (hsu : TestBase.setUp s = (Except.ok d, sa))
    (htd : TestBase.tearDown d sa = (Except.ok (), sb)) :
    sb.fs = s.fs ∧ sb.readonly = s.readonly ∧ sb.cwd = d := by
  obtain ⟨hcl, hro⟩ := hwf
  obtain ⟨hd, hfresh, hfs, hroeq, hcwd⟩ := setUp_ok_spec hsu
  rw [tearDown_eq_rmtree] at htd
  obtain ⟨hmem, hfs2, hro2, hcwd2⟩ := rmtree_ok_spec htd
  have hdl : 1 ≤ d.length := by
    subst hd; simp [tmpName]
  have hddec : decide (d <+: d) = true := decide_eq_true (isPre_refl d)
  refine ⟨?_, ?_, ?_⟩
  · rw [hfs2, hfs]
    have hstep : (d :: s.fs).filter (fun q => !(decide (d <+: q))) =
        s.fs.filter (fun q => !(decide (d <+: q))) := by
      simp only [List.filter, hddec, Bool.not_true]
    rw [hstep]
    apply filter_eq_self_of_all_true
    intro q hq
    have hnp := closed_no_ext hcl hfresh hdl hq
    simp [hnp]
  · rw [hro2, hroeq]
    apply filter_eq_self_of_all_true
    intro q hq
    have hnp := closed_no_ext hcl hfresh hdl (hro q hq)
    simp [hnp]
  · rw [hcwd2, hcwd]

/-- C1, witness for the amended statement at the concrete state `sInit`. -/
theorem fixture_chain_restores_fs_only_witness :
    sEnd.fs = sInit.fs ∧ sEnd.readonly = sInit.readonly ∧ sEnd.cwd = dTmp :=
  fixture_chain_restores_fs_only sInit dTmp sMid sEnd (by decide) rfl rfl

/-- C2, counterexample: from the concrete state `sFault`, `mkdtemp` succeeds
and creates the directory `dTmp`, the following `chdir` raises `OSError`, so
`setUp` itself raises after creating the directory; per unittest semantics
`tearDown` is skipped, and after the run the directory still exists: it is
not released on this exceptional exit path. -/
theorem setUp_failure_leaks_tmpdir :
    (runCase Test.test_01 sFault).1 = Except.error PyErr.oserror ∧
    dTmp ∈ (runCase Test.test_01 sFault).2.fs :=
  ⟨rfl, by decide⟩

/-- C2, amended: the temporary directory is released on the normal exit path
and on every exceptional exit of the test method (teardown still runs there),
provided `setUp` succeeded and the teardown's `rmtree` completes normally;
but when `setUp` itself raises after creating the directory, `tearDown` is
skipped and the directory is not removed (see the counterexample). -/
theorem runCase_releases_tmpdir (body : Sys → Except PyErr Unit × Sys) (s : Sys)
    (d : FsPath) (s1 s3 : Sys)
    (hsu : TestBase.setUp s = (Except.ok d, s1))
    (htd : TestBase.tearDown d (body s1).2 = (Except.ok (), s3)) :
    (runCase body s).2 = s3 ∧
    s3.fs.all (fun q => !(decide (d <+: q))) = true := by
  constructor
  · rw [runCase_of_setUp_ok hsu, runBodyTearDown_snd, htd]
  · rw [tearDown_eq_rmtree] at htd
    obtain ⟨hmem, hfs, hro, hcwd⟩ := rmtree_ok_spec htd
    rw [hfs, List.all_eq_true]
    intro q hq
    exact (List.mem_filter.mp hq).2

/-- C2, witness for the amended statement: the run of `test_01` from `sInit`
ends in `sEnd`, which holds nothing at or below the temporary directory. -/
theorem runCase_releases_tmpdir_witness :
    (runCase Test.test_01 sInit).2 = sEnd ∧
    sEnd.fs.all (fun q => !(decide (dTmp <+: q))) = true :=
  runCase_releases_tmpdir Test.test_01 sInit dTmp sMid sEnd rfl rfl

/-- C3: after every normally returning `TestBase.setUp` from a well-formed
state, the current working directory exists, is writable, and listing its
contents yields the empty sequence. -/
theorem setUp_postcondition (s : Sys) (d : FsPath) (s' : Sys)
    (hwf : s.WF) (h : TestBase.setUp s = (Except.ok d, s')) :
    s'.cwd ∈ s'.fs ∧ writable s'.cwd s' ∧ (listdir s'.cwd s').1 = Except.ok [] := by
  obtain ⟨hcl, hro⟩ := hwf
  obtain ⟨hd, hfresh, hfs, hroeq, hcwd⟩ := setUp_ok_spec h
  have hmem : s'.cwd ∈ s'.fs := by
    rw [hcwd, hfs]
    exact List.mem_cons_self _ _
  refine ⟨hmem, ⟨hmem, ?_⟩, ?_⟩
  · rw [hcwd, hroeq]
    intro hin
    exact hfresh (hro d hin)
  · rw [hcwd, setUp_listdir_empty hcl h]

/-- C3, witness at the concrete state `sInit`. -/
theorem setUp_postcondition_witness :
    sMid.cwd ∈ sMid.fs ∧ writable sMid.cwd sMid ∧
    (listdir sMid.cwd sMid).1 = Except.ok [] :=
  setUp_postcondition sInit dTmp sMid (by decide) rfl

/-- C4: after every normally returning `TestBase.tearDown`, nothing at or
below the directory it was asked to delete remains on the filesystem: the
directory itself and every entry it contained are gone. -/
theorem tearDown_removes_tree (d : FsPath) (s s' : Sys) (u : Unit)
    (h : TestBase.tearDown d s = (Except.ok u, s')) :
    s'.fs.all (fun q => !(decide (d <+: q))) = true := by
  rw [tearDown_eq_rmtree] at h
  obtain ⟨hmem, hfs, hro, hcwd⟩ := rmtree_ok_spec h
  rw [hfs, List.all_eq_true]
  intro q hq
  exact (List.mem_filter.mp hq).2

/-- C4, witness at the concrete state `sMid`. -/
theorem tearDown_removes_tree_witness :
    sEnd.fs.all (fun q => !(decide (dTmp <+: q))) = true :=
  tearDown_removes_tree dTmp sMid sEnd () rfl

/-- C5: two normally returning invocations of `TestBase.setUp`, the second
one run while the directory created by the first still exists, create
distinct directories, and each directory is empty at creation. -/
theorem setUp_unique_and_empty (sa sb : Sys) (da db : FsPath) (sa2 sb2 : Sys)
    (hcla : ParentClosed sa.fs) (hclb : ParentClosed sb.fs)
    (ha : TestBase.setUp sa = (Except.ok da, sa2))
    (hb : TestBase.setUp sb = (Except.ok db, sb2))
    (hlive : da ∈ sb.fs) :
    da ≠ db ∧ (listdir da sa2).1 = Except.ok [] ∧
    (listdir db sb2).1 = Except.ok [] := by
  obtain ⟨hdb, hfreshb, hfsb, hrob, hcwdb⟩ := setUp_ok_spec hb
  refine ⟨?_, ?_, ?_⟩
  · intro he
    rw [he] at hlive
    exact hfreshb hlive
  · rw [setUp_listdir_empty hcla ha]
  · rw [setUp_listdir_empty hclb hb]

/-- C5, witness: the first `setUp` from `sInit` creates `dTmp`; a second
`setUp` from the resulting state `sMid` creates the distinct `dTmp2`. -/
theorem setUp_unique_and_empty_witness :
    dTmp ≠ dTmp2 ∧ (listdir dTmp sMid).1 = Except.ok [] ∧
    (listdir dTmp2 sMid2).1 = Except.ok [] :=
  setUp_unique_and_empty sInit sMid dTmp dTmp2 sMid sMid2
    (by decide) (by decide) rfl rfl (by decide)

/-- The entropy-explicit fixture at draw zero is the fixture itself. -/
theorem setUpR_zero (s : Sys) : TestBase.setUpR 0 s = TestBase.setUp s := rfl

/-- Whatever the entropy draw, the directory name `mkdtempR` picks does not
collide with any existing filesystem entry. -/
theorem tmpName_freshNonce_add_not_mem (fs : List FsPath) (pfx : String) (k : Nat) :
    tmpName pfx (freshNonce fs pfx + k) ∉ fs := by
  intro hmem
  have hn : freshNonce fs pfx + k ∈ usedNonces fs pfx :=
    List.mem_filterMap.mpr ⟨tmpName pfx (freshNonce fs pfx + k), hmem, nonceOf_tmpName _ _⟩
  have hle := mem_le_foldr_max _ _ hn
  simp only [freshNonce] at hle
  omega

/-- Characterization of a successful `mkdtempR`: the returned path is the
offset temporary name determined by the filesystem and the draw, it is added
to the filesystem, and nothing else of the observable state changes. -/
theorem mkdtempR_ok_spec {noise : Nat} {pfx : String} {s : Sys} {d : FsPath} {s' : Sys}
    (h : mkdtempR noise pfx s = (Except.ok d, s')) :
    d = tmpName pfx (freshNonce s.fs pfx + noise) ∧ d ∉ s.fs ∧
    s'.fs = d :: s.fs ∧ s'.readonly = s.readonly ∧ s'.cwd = s.cwd := by
  obtain ⟨hfs, hro, hcwd⟩ := takeFault_fields s
  unfold mkdtempR at h
  cases hf : (takeFault s).1
  · rw [hf] at h
    simp only [Bool.false_eq_true, if_false] at h
    injection h with h1 h2
    injection h1 with h1
    subst h1
    constructor
    · rw [hfs]
    constructor
    · rw [hfs]
      exact tmpName_freshNonce_add_not_mem _ _ _
    · rw [← h2]
      simp [hfs, hro, hcwd]
  · rw [hf] at h
    simp only [if_true] at h
    injection h with h1 h2
    exact absurd h1 (by simp)

/-- Characterization of a successful `TestBase.setUpR`: the directory stored
in `self.cwd` is the offset temporary name determined by the filesystem and
the draw, it did not exist before, it is added to the filesystem, and it
becomes the working directory. -/
theorem setUpR_ok_spec {noise : Nat} {s : Sys} {d : FsPath} {s' : Sys}
    (h : TestBase.setUpR noise s = (Except.ok d, s')) :
    d = tmpName "git-bv_test" (freshNonce s.fs "git-bv_test" + noise) ∧ d ∉ s.fs ∧
    s'.fs = d :: s.fs ∧ s'.readonly = s.readonly ∧ s'.cwd = d := by
  unfold TestBase.setUpR at h
  have e1 : CreateRepositories.setUp s = (Except.ok (), s) := rfl
  rw [e1] at h
  dsimp only at h
  rcases hm : mkdtempR noise "git-bv_test" s with ⟨rm, s2⟩
  rw [hm] at h
  cases rm with
  | error e => simp at h
  | ok dm =>
    dsimp only at h
    rcases hc : chdir dm s2 with ⟨rc, s3⟩
    rw [hc] at h
    cases rc with
    | error e => simp at h
    | ok u =>
      dsimp only at h
      simp only [Prod.mk.injEq, Except.ok.injEq] at h
      obtain ⟨hdm, hs3⟩ := h
      subst hdm
      subst hs3
      obtain ⟨hm1, hm2, hm3, hm4, hm5⟩ := mkdtempR_ok_spec hm
      obtain ⟨hc1, hc2, hc3, hc4⟩ := chdir_ok_spec hc
      refine ⟨hm1, hm2, ?_, ?_, hc4⟩
      · rw [hc2, hm3]
      · rw [hc3, hm4]

/-- C6, counterexample: two runs of `setUp` from the identical initial state
`sInit` whose `mkdtemp` entropy draws differ create different directory
paths.  The draw comes from `tempfile`'s entropy-seeded name sequence, which
is outside the process-visible state, so the created path is not determined
by the initial state alone and acquisition is not deterministic as the claim
states. -/
theorem setUp_path_depends_on_entropy :
    (TestBase.setUpR 0 sInit).1 = Except.ok dTmp ∧
    (TestBase.setUpR 1 sInit).1 = Except.ok dTmp2 ∧
    dTmp ≠ dTmp2 :=
  ⟨rfl, rfl, by decide⟩

/-- C6, amended: release is deterministic, and acquisition is deterministic
only relative to the entropy draw feeding `mkdtemp`'s name choice: for every
normally completing run of the fixture, the created path is the stated
function of the initial filesystem and the draw, and every observable aspect
of the states after `setUp` and after `tearDown` is the stated function of
the initial state, the created path and the draw. -/
theorem fixture_outcome_determined (noise : Nat) (s : Sys) (d : FsPath) (sa sb : Sys)
    (hsu : TestBase.setUpR noise s = (Except.ok d, sa))
    (htd : TestBase.tearDown d sa = (Except.ok (), sb)) :
    d = tmpName "git-bv_test" (freshNonce s.fs "git-bv_test" + noise) ∧
    sa.fs = d :: s.fs ∧ sa.readonly = s.readonly ∧ sa.cwd = d ∧
    sb.fs = (d :: s.fs).filter (fun q => !(decide (d <+: q))) ∧
    sb.readonly = s.readonly.filter (fun q => !(decide (d <+: q))) ∧
    sb.cwd = d := by
  obtain ⟨hd, hfresh, hfs, hro, hcwd⟩ := setUpR_ok_spec hsu
  rw [tearDown_eq_rmtree] at htd
  obtain ⟨hmem, hfs2, hro2, hcwd2⟩ := rmtree_ok_spec htd
  refine ⟨hd, hfs, hro, hcwd, ?_, ?_, ?_⟩
  · rw [hfs2, hfs]
  · rw [hro2, hro]
  · rw [hcwd2, hcwd]

/-- C6, witness for the amended statement at draw `0` from `sInit`. -/
theorem fixture_outcome_determined_witness :
    dTmp = tmpName "git-bv_test" (freshNonce sInit.fs "git-bv_test" + 0) ∧
    sMid.fs = dTmp :: sInit.fs ∧ sMid.readonly = sInit.readonly ∧ sMid.cwd = dTmp ∧
    sEnd.fs = (dTmp :: sInit.fs).filter (fun q => !(decide (dTmp <+: q))) ∧
    sEnd.readonly = sInit.readonly.filter (fun q => !(decide (dTmp <+: q))) ∧
    sEnd.cwd = dTmp :=
  fixture_outcome_determined 0 sInit dTmp sMid sEnd rfl rfl

/-- C7: the placeholder test methods `test_01` and `test_02` perform no
assertions and cannot fail: from any state they return normally and leave
the state unchanged. -/
theorem placeholder_tests_never_fail (s : Sys) :
    Test.test_01 s = (Except.ok (), s) ∧ Test.test_02 s = (Except.ok (), s) :=
  ⟨rfl, rfl⟩

/-- C8: the packaging declaration assigns exactly three test-time
dependencies (WebTest, pytest, pytest-cov) to the single extra named
`testing`, and declares exactly one script entry point, named `git-bv`. -/
theorem packaging_surface :
    setupArgs.extras_require = [("testing", tests_require)] ∧
    tests_require = ["WebTest >= 1.3.1", "pytest", "pytest-cov"] ∧
    tests_require.length = 3 ∧
    setupArgs.scripts = ["git-bv"] ∧
    setupArgs.scripts.length = 1 :=
  ⟨rfl, rfl, rfl, rfl, rfl⟩

/-- C9: `TestBase.tearDown` never restores the working directory that was
current before `setUp`: after every normally completing run of the fixture,
the current working directory is the path of the temporary directory, which
no longer exists on the filesystem. -/
theorem fixture_leaves_dangling_cwd (s : Sys) (d : FsPath) (sa sb : Sys)
    (hsu : TestBase.setUp s = (Except.ok d, sa))
    (htd : TestBase.tearDown d sa = (Except.ok (), sb)) :
    sb.cwd = d ∧ d ∉ sb.fs := by
  obtain ⟨hd, hfresh, hfs, hroeq, hcwd⟩ := setUp_ok_spec hsu
  rw [tearDown_eq_rmtree] at htd
  obtain ⟨hmem, hfs2, hro2, hcwd2⟩ := rmtree_ok_spec htd
  refine ⟨by rw [hcwd2, hcwd], ?_⟩
  intro hin
  rw [hfs2] at hin
  have h2 := (List.mem_filter.mp hin).2
  simp at h2

/-- C9, witness at the concrete state `sInit`. -/
theorem fixture_leaves_dangling_cwd_witness :
    sEnd.cwd = dTmp ∧ dTmp ∉ sEnd.fs :=
  fixture_leaves_dangling_cwd sInit dTmp sMid sEnd rfl rfl

/-- C10: the package declares no runtime dependencies: the `requires` list
passed to `setup` as `install_requires` is empty. -/
theorem no_runtime_dependencies :
    requires = ([] : List String) ∧ setupArgs.install_requires = [] ∧
    setupArgs.install_requires.length = 0 :=
  ⟨rfl, rfl, rfl⟩
